import Mathlib

/-!
Shallow embedding of the SPH particle-system core of this repository
(`System.cpp`, `forces/ViscosityForce.cpp`, `forces/SurfaceForce.cpp`).

Modelling conventions:

* C++ `float` scalars are idealised as exact rationals `ℚ` wherever the
  source only adds, subtracts, multiplies, divides and compares; the square
  roots produced by Eigen's `.norm()` and by `pow(x, .5f)` are modelled in
  `ℝ` (`Real.sqrt`).  Decimal literals of the source (`0.2f`, `0.001f`,
  `72.75f`, ...) are read as the exact decimals they denote.
* An Eigen state vector of length `6 * N` (`VectorXf`) is modelled as a
  list of `N` six-component blocks (`SVec`); the flat index `i * 6 + k` of
  the source corresponds to field `k` of block `i`.  Every loop of the
  source reads and writes only the block `i*6 .. i*6+5` of particle `i`,
  so each loop over particle indices is a map over blocks.
* Collaborators living outside the source files under inspection (the
  density field, the colour field, the kernels, the neighbour grid, the
  pluggable `Solver`) enter as function parameters.
-/

/-- Positional lookup in a list (the element at index `i`, if any);
used to state per-particle properties. -/
def nth {α : Type} : List α → ℕ → Option α
  | [], _ => none
  | a :: _, 0 => some a
  | _ :: l, n + 1 => nth l n

theorem nth_map {α β : Type} (f : α → β) (l : List α) (i : ℕ) :
    nth (l.map f) i = (nth l i).map f := by
  induction l generalizing i with
  | nil => rfl
  | cons a l ih => cases i with
    | zero => rfl
    | succ n => simpa [nth] using ih n

/-- Three-component vector of rationals; models `Vector3f` in the code
paths that take no square root. -/
structure Vec3 where
  x : ℚ
  y : ℚ
  z : ℚ
  deriving DecidableEq

instance : Add Vec3 := ⟨fun a b => ⟨a.x + b.x, a.y + b.y, a.z + b.z⟩⟩

instance : Sub Vec3 := ⟨fun a b => ⟨a.x - b.x, a.y - b.y, a.z - b.z⟩⟩

instance : Neg Vec3 := ⟨fun a => ⟨-a.x, -a.y, -a.z⟩⟩

instance : Zero Vec3 := ⟨⟨0, 0, 0⟩⟩

instance : SMul ℚ Vec3 := ⟨fun q v => ⟨q * v.x, q * v.y, q * v.z⟩⟩

instance : HMul Vec3 ℚ Vec3 := ⟨fun v q => ⟨v.x * q, v.y * q, v.z * q⟩⟩

/-- Componentwise division of a vector by a scalar (Eigen `Vector3f / float`). -/
def Vec3.sdiv (v : Vec3) (a : ℚ) : Vec3 := ⟨v.x / a, v.y / a, v.z / a⟩

/-- A particle (`Particle.h`): position, velocity, force accumulator,
mass, density, pressure and the movable flag. -/
structure Particle where
  position : Vec3
  velocity : Vec3
  force : Vec3
  mass : ℚ
  density : ℚ
  pressure : ℚ
  movable : Bool
  deriving DecidableEq

/-- One particle's six-component block of the flat state vector: fields
`px py pz vx vy vz` are the slots `i*6+0 .. i*6+5` of the source's
`VectorXf`. -/
structure SVec where
  px : ℚ
  py : ℚ
  pz : ℚ
  vx : ℚ
  vy : ℚ
  vz : ℚ
  deriving DecidableEq

/-- The block `System::getState` writes for one particle (System.cpp:126-131). -/
def Particle.readState (p : Particle) : SVec :=
  ⟨p.position.x, p.position.y, p.position.z,
   p.velocity.x, p.velocity.y, p.velocity.z⟩

/-- The writes `System::setState` performs on one movable particle
(System.cpp:159-164). -/
def Particle.applyState (p : Particle) (c : SVec) : Particle :=
  { p with position := ⟨c.px, c.py, c.pz⟩, velocity := ⟨c.vx, c.vy, c.vz⟩ }

/-- The particle system (`System.h`): the ordered particle sequence, the
mutable step size `dt` and the clock `time`.  Forces, fields and the
solver are external and passed as parameters where needed.  `dt` lives in
`ℝ` because the adaptive controller multiplies it by a square root. -/
structure System where
  particles : List Particle
  dt : ℝ
  time : ℚ

/-- System::getState (System.cpp:121-135). -/
def System.getState (s : System) : List SVec :=
  s.particles.map Particle.readState

/-- The particle loop of System::setState (System.cpp:157-166): particle
`i` takes block `i` of the incoming vector if it is movable and is
skipped otherwise.  A read past the end of the incoming vector (which the
source never performs for a matching-length vector) is modelled by a zero
block. -/
def writeState : List Particle → List SVec → List Particle
  | [], _ => []
  | p :: ps, src =>
      (if p.movable then p.applyState (src.headD ⟨0, 0, 0, 0, 0, 0⟩) else p) ::
        writeState ps src.tail

/-- Two-argument System::setState(src, t) (System.cpp:156-168). -/
def System.setState (s : System) (src : List SVec) (t : ℚ) : System :=
  { s with particles := writeState s.particles src, time := t }

/-- One-argument System::setState(src) (System.cpp:152-154): delegates to
the two-argument form with the current time. -/
def System.setState1 (s : System) (src : List SVec) : System :=
  s.setState src s.time

/-- X lower wall of System::checkCollisions (System.cpp:234-241). -/
def collideXlow (c : SVec) : SVec :=
  if c.px < -0.2 then
    { c with px := -0.2, vx := if c.vx < 0 then -c.vx else c.vx }
  else c

/-- X upper wall (System.cpp:242-249). -/
def collideXhigh (c : SVec) : SVec :=
  if c.px > 0.2 then
    { c with px := 0.2, vx := if c.vx > 0 then -c.vx else c.vx }
  else c

/-- Z lower wall (System.cpp:251-258).  The source negates the X-velocity
slot into the Z-velocity slot: `newState[i*6+5] = -newState[i*6+3]`. -/
def collideZlow (c : SVec) : SVec :=
  if c.pz < -0.2 then
    { c with pz := -0.2, vz := if c.vz < 0 then -c.vx else c.vz }
  else c

/-- Z upper wall (System.cpp:259-266); same X-for-Z slip as the lower wall. -/
def collideZhigh (c : SVec) : SVec :=
  if c.pz > 0.2 then
    { c with pz := 0.2, vz := if c.vz > 0 then -c.vx else c.vz }
  else c

/-- Y floor (System.cpp:268-275); there is no upper Y wall. -/
def collideYlow (c : SVec) : SVec :=
  if c.py < -2 then
    { c with py := -2, vy := if c.vy < 0 then -c.vy else c.vy }
  else c

/-- System::checkCollisions (System.cpp:232-277): five passes over the
particle blocks, in source order X-low, X-high, Z-low, Z-high, Y-low.
Each source loop runs over the particle indices and touches only block
`i`, so over a state vector of the matching length `6 * N` each loop is a
map over the blocks. -/
def checkCollisions (newState : List SVec) : List SVec :=
  ((((newState.map collideXlow).map collideXhigh).map
      collideZlow).map collideZhigh).map collideYlow

/-- Composite per-block effect of the five collision passes. -/
def collideAll (c : SVec) : SVec :=
  collideYlow (collideZhigh (collideZlow (collideXhigh (collideXlow c))))

/-! State-vector helper lemmas. -/

theorem writeState_nth (ps : List Particle) (src : List SVec) (i : ℕ) :
    nth (writeState ps src) i =
      (nth ps i).map
        (fun p => if p.movable then p.applyState ((nth src i).getD ⟨0, 0, 0, 0, 0, 0⟩) else p) := by
  induction ps generalizing src i with
  | nil => rfl
  | cons p ps ih =>
    cases i with
    | zero => cases src <;> rfl
    | succ n =>
      have htail : ∀ m : ℕ, nth src.tail m = nth src (m + 1) := by
        intro m; cases src <;> rfl
      simpa [nth, writeState, htail] using ih src.tail n

/-- Writing back exactly what was read restores every particle. -/
theorem writeState_roundtrip (ps : List Particle) :
    writeState ps (ps.map Particle.readState) = ps := by
  induction ps with
  | nil => rfl
  | cons p ps ih =>
    have happ : p.applyState p.readState = p := rfl
    simp [writeState, ih, happ]

/-- C7: setState(getState()) is the identity on the whole system: movable
particles get back exactly the values that were read out, immovable ones
are skipped, and the one-argument form keeps the clock. -/
theorem c7_setState_getState_roundtrip (s : System) : s.setState1 s.getState = s := by
  cases s with
  | mk ps dt t =>
    simp [System.setState1, System.setState, System.getState, writeState_roundtrip]

/-- C8: after either form of setState, a particle whose movable flag is
false keeps exactly its position and velocity, whatever the incoming
vector holds. -/
theorem c8_immovable_unchanged (s : System) (src : List SVec) (t : ℚ) (i : ℕ)
    (h : (nth s.particles i).map Particle.movable = some false) :
    (nth (s.setState src t).particles i).map (fun p => (p.position, p.velocity)) =
        (nth s.particles i).map (fun p => (p.position, p.velocity)) ∧
      (nth (s.setState1 src).particles i).map (fun p => (p.position, p.velocity)) =
        (nth s.particles i).map (fun p => (p.position, p.velocity)) := by
  have hw : nth (writeState s.particles src) i = nth s.particles i := by
    rw [writeState_nth]
    cases hcase : nth s.particles i with
    | none => rfl
    | some p =>
      rw [hcase] at h
      have hm : p.movable = false := by simpa using h
      simp [hm]
  constructor <;> simp [System.setState, System.setState1, hw]

/-- Concrete immovable particle used by the C8 witness. -/
def sysFix : System :=
  ⟨[⟨⟨1, 2, 3⟩, ⟨4, 5, 6⟩, 0, 1, 1, 0, false⟩], 1, 0⟩

theorem c8_immovable_unchanged_witness :
    ((nth sysFix.particles 0).map Particle.movable = some false) ∧
      ((nth (sysFix.setState [⟨9, 9, 9, 9, 9, 9⟩] 7).particles 0).map
            (fun p => (p.position, p.velocity)) =
          (nth sysFix.particles 0).map (fun p => (p.position, p.velocity)) ∧
        (nth (sysFix.setState1 [⟨9, 9, 9, 9, 9, 9⟩]).particles 0).map
            (fun p => (p.position, p.velocity)) =
          (nth sysFix.particles 0).map (fun p => (p.position, p.velocity))) :=
  ⟨rfl, c8_immovable_unchanged sysFix [⟨9, 9, 9, 9, 9, 9⟩] 7 0 rfl⟩

/-- C1: the claim's Z-side reflection fails on the code.  A particle at
position (0, 0, -0.25) with velocity (5, 0, -1) is clamped to Z = -0.2,
but its Z-velocity becomes -5 — the negated X-velocity (System.cpp:255)
— not +1, the negated Z-velocity the claim describes. -/
theorem c1_z_clamp_negates_x_velocity :
    checkCollisions [⟨0, 0, -0.25, 5, 0, -1⟩] = [⟨0, 0, -0.2, 5, 0, -5⟩] ∧
      (checkCollisions [⟨0, 0, -0.25, 5, 0, -1⟩]).map SVec.vz ≠ [1] := by
  norm_num [checkCollisions, collideXlow, collideXhigh, collideZlow, collideZhigh,
    collideYlow]

/-! Per-axis shape of the collision passes. -/

theorem collideZlow_px (c : SVec) : (collideZlow c).px = c.px := by
  unfold collideZlow; split <;> rfl

theorem collideZhigh_px (c : SVec) : (collideZhigh c).px = c.px := by
  unfold collideZhigh; split <;> rfl

theorem collideYlow_px (c : SVec) : (collideYlow c).px = c.px := by
  unfold collideYlow; split <;> rfl

theorem collideXlow_pz (c : SVec) : (collideXlow c).pz = c.pz := by
  unfold collideXlow; split <;> rfl

theorem collideXhigh_pz (c : SVec) : (collideXhigh c).pz = c.pz := by
  unfold collideXhigh; split <;> rfl

theorem collideYlow_pz (c : SVec) : (collideYlow c).pz = c.pz := by
  unfold collideYlow; split <;> rfl

theorem collideXlow_py (c : SVec) : (collideXlow c).py = c.py := by
  unfold collideXlow; split <;> rfl

theorem collideXhigh_py (c : SVec) : (collideXhigh c).py = c.py := by
  unfold collideXhigh; split <;> rfl

theorem collideZlow_py (c : SVec) : (collideZlow c).py = c.py := by
  unfold collideZlow; split <;> rfl

theorem collideZhigh_py (c : SVec) : (collideZhigh c).py = c.py := by
  unfold collideZhigh; split <;> rfl

/-- The X position after the two X passes, as a single conditional. -/
theorem xpass_px (c : SVec) :
    (collideXhigh (collideXlow c)).px =
      if c.px < -0.2 then -0.2 else if c.px > 0.2 then 0.2 else c.px := by
  by_cases h1 : c.px < -0.2
  · have : ¬((-0.2 : ℚ) > 0.2) := by norm_num
    simp [collideXlow, collideXhigh, h1, this]
  · by_cases h2 : c.px > 0.2 <;> simp [collideXlow, collideXhigh, h1, h2]

/-- The Z position after the two Z passes, as a single conditional. -/
theorem zpass_pz (c : SVec) :
    (collideZhigh (collideZlow c)).pz =
      if c.pz < -0.2 then -0.2 else if c.pz > 0.2 then 0.2 else c.pz := by
  by_cases h1 : c.pz < -0.2
  · have : ¬((-0.2 : ℚ) > 0.2) := by norm_num
    simp [collideZlow, collideZhigh, h1, this]
  · by_cases h2 : c.pz > 0.2 <;> simp [collideZlow, collideZhigh, h1, h2]

theorem collideAll_px (c : SVec) :
    (collideAll c).px =
      if c.px < -0.2 then -0.2 else if c.px > 0.2 then 0.2 else c.px := by
  rw [collideAll, collideYlow_px, collideZhigh_px, collideZlow_px, xpass_px]

theorem collideAll_pz (c : SVec) :
    (collideAll c).pz =
      if c.pz < -0.2 then -0.2 else if c.pz > 0.2 then 0.2 else c.pz := by
  rw [collideAll, collideYlow_pz, zpass_pz, collideXhigh_pz, collideXlow_pz]

theorem collideAll_py (c : SVec) :
    (collideAll c).py = if c.py < -2 then -2 else c.py := by
  have hpy : (collideZhigh (collideZlow (collideXhigh (collideXlow c)))).py = c.py := by
    rw [collideZhigh_py, collideZlow_py, collideXhigh_py, collideXlow_py]
  rw [collideAll]
  unfold collideYlow
  rw [hpy]
  split
  · rfl
  · exact hpy

theorem checkCollisions_nth (st : List SVec) (i : ℕ) :
    nth (checkCollisions st) i = (nth st i).map collideAll := by
  rw [checkCollisions, nth_map, nth_map, nth_map, nth_map, nth_map]
  cases nth st i <;> rfl

/-- C10: the state returned by checkCollisions satisfies the container
bounds on every particle's position (X and Z within [-0.2, 0.2], Y at
least -2), and position components already inside their bounds are
returned unchanged. -/
theorem c10_collision_container_bounds (st : List SVec) (i : ℕ) (cin : SVec)
    (h : nth st i = some cin) :
    ∃ c, nth (checkCollisions st) i = some c ∧
      (-0.2 ≤ c.px ∧ c.px ≤ 0.2 ∧ -0.2 ≤ c.pz ∧ c.pz ≤ 0.2 ∧ -2 ≤ c.py) ∧
      ((-0.2 ≤ cin.px ∧ cin.px ≤ 0.2) → c.px = cin.px) ∧
      ((-0.2 ≤ cin.pz ∧ cin.pz ≤ 0.2) → c.pz = cin.pz) ∧
      (-2 ≤ cin.py → c.py = cin.py) := by
  refine ⟨collideAll cin, by rw [checkCollisions_nth, h]; rfl, ?_, ?_, ?_, ?_⟩
  · rw [collideAll_px, collideAll_pz, collideAll_py]
    refine ⟨?_, ?_, ?_, ?_, ?_⟩ <;> split_ifs <;> (try push_neg at *) <;> linarith
  · rintro ⟨hl, hr⟩
    rw [collideAll_px]
    split_ifs <;> first | rfl | linarith
  · rintro ⟨hl, hr⟩
    rw [collideAll_pz]
    split_ifs <;> first | rfl | linarith
  · intro hy
    rw [collideAll_py]
    split_ifs <;> first | rfl | linarith

theorem c10_collision_container_bounds_witness :
    nth [(⟨0.3, -3, -0.3, 1, -1, 1⟩ : SVec)] 0 = some ⟨0.3, -3, -0.3, 1, -1, 1⟩ ∧
      ∃ c, nth (checkCollisions [(⟨0.3, -3, -0.3, 1, -1, 1⟩ : SVec)]) 0 = some c ∧
        (-0.2 ≤ c.px ∧ c.px ≤ 0.2 ∧ -0.2 ≤ c.pz ∧ c.pz ≤ 0.2 ∧ -2 ≤ c.py) ∧
        ((-0.2 ≤ (0.3 : ℚ) ∧ (0.3 : ℚ) ≤ 0.2) → c.px = 0.3) ∧
        ((-0.2 ≤ (-0.3 : ℚ) ∧ (-0.3 : ℚ) ≤ 0.2) → c.pz = -0.3) ∧
        (-2 ≤ (-3 : ℚ) → c.py = -3) :=
  ⟨rfl, c10_collision_container_bounds [⟨0.3, -3, -0.3, 1, -1, 1⟩] 0 ⟨0.3, -3, -0.3, 1, -1, 1⟩ rfl⟩

/-! Componentwise forms of the Vec3 operations, for concrete evaluation. -/

@[simp] theorem Vec3.add_def (a b : Vec3) :
    a + b = ⟨a.x + b.x, a.y + b.y, a.z + b.z⟩ := rfl

@[simp] theorem Vec3.sub_def (a b : Vec3) :
    a - b = ⟨a.x - b.x, a.y - b.y, a.z - b.z⟩ := rfl

@[simp] theorem Vec3.neg_def (a : Vec3) : -a = ⟨-a.x, -a.y, -a.z⟩ := rfl

@[simp] theorem Vec3.smul_def (q : ℚ) (v : Vec3) :
    q • v = ⟨q * v.x, q * v.y, q * v.z⟩ := rfl

@[simp] theorem Vec3.hmul_def (v : Vec3) (q : ℚ) :
    v * q = ⟨v.x * q, v.y * q, v.z * q⟩ := rfl

@[simp] theorem Vec3.zero_def : (0 : Vec3) = ⟨0, 0, 0⟩ := rfl

/-- The apply method of a registered force mutates the system's particle
sequence; forces are modelled as particle-list transformers, listed in
registration order. -/
abbrev ForceFun := List Particle → List Particle

/-- ViscosityForce::apply (ViscosityForce.cpp:17-28).  `ddW` abstracts
the kernel `Viscosity::ddW` and `query` abstracts `s->grid.query`, both
external to the inspected sources.  Note the neighbour loop
(ViscosityForce.cpp:23) assigns `viscosityForce =` rather than `+=`, so
the local accumulator holds only the last queried neighbour's term (or
zero when the query is empty). -/
def ViscosityForce.apply (ddW : Vec3 → ℚ) (query : Vec3 → List Particle)
    (targets : List Particle) : List Particle :=
  let u : ℚ := 100
  targets.map (fun pi =>
    let viscosityForce : Vec3 :=
      (query pi.position).foldl
        (fun _ pj =>
          ((pj.mass • (pj.velocity - pi.velocity)).sdiv pj.density) *
            ddW (pi.position - pj.position))
        0
    { pi with force := pi.force + u • viscosityForce })

/-- Target particle of the C2 counterexample: at rest at the origin. -/
def viscTarget : Particle := ⟨⟨0, 0, 0⟩, ⟨0, 0, 0⟩, ⟨0, 0, 0⟩, 1, 1, 0, true⟩

/-- First queried neighbour: its viscosity term is (1, 0, 0). -/
def viscN1 : Particle := ⟨⟨1, 0, 0⟩, ⟨1, 0, 0⟩, ⟨0, 0, 0⟩, 1, 1, 0, true⟩

/-- Second queried neighbour: its viscosity term is (2, 0, 0). -/
def viscN2 : Particle := ⟨⟨2, 0, 0⟩, ⟨2, 0, 0⟩, ⟨0, 0, 0⟩, 1, 1, 0, true⟩

/-- C2: the claim's accumulation fails on the code.  With kernel constant 1
and two neighbours whose terms are (1,0,0) and (2,0,0), the force gained
by the target is u * (2,0,0) = (200,0,0) — only the last queried
neighbour — and not the claimed sum u * (3,0,0) = (300,0,0). -/
theorem c2_viscosity_last_neighbour_only :
    (ViscosityForce.apply (fun _ => 1) (fun _ => [viscN1, viscN2]) [viscTarget]).map
        Particle.force = [⟨200, 0, 0⟩] ∧
      (ViscosityForce.apply (fun _ => 1) (fun _ => [viscN1, viscN2]) [viscTarget]).map
        Particle.force ≠ [⟨300, 0, 0⟩] := by
  constructor <;>
    norm_num [ViscosityForce.apply, Vec3.sdiv, viscTarget, viscN1, viscN2, Vec3.mk.injEq]

/-- System::clearForces (System.cpp:194-198). -/
def clearForces (ps : List Particle) : List Particle :=
  ps.map (fun p => { p with force := (0 : Vec3) })

/-- System::computeForces (System.cpp:172-192).  `dEval` abstracts
`densityField->eval` (DensityField lives outside the inspected sources;
per the spec it is a pure function of the particle configuration —
positions and masses — so evaluating every particle against the incoming
list coincides with the source's in-place assignment loop).  `fs` are the
registered forces' apply methods in registration order.  The source
accumulates `restDensity` as the sum of the densities it just assigned
and divides by the particle count. -/
def computeForces (dEval : List Particle → Particle → ℚ) (fs : List ForceFun)
    (ps : List Particle) : List Particle :=
  let withDensity := ps.map (fun p => { p with density := dEval ps p })
  let k : ℚ := 0.1
  let restDensity : ℚ := (withDensity.map Particle.density).sum / (ps.length : ℚ)
  let withPressure :=
    withDensity.map (fun p => { p with pressure := k * (p.density - restDensity) })
  fs.foldl (fun acc f => f acc) withPressure

/-- System::computeDerivative (System.cpp:200-212): velocity into the
position-derivative slots, force / density into the velocity-derivative
slots. -/
def computeDerivative (ps : List Particle) : List SVec :=
  ps.map (fun p =>
    ⟨p.velocity.x, p.velocity.y, p.velocity.z,
     p.force.x / p.density, p.force.y / p.density, p.force.z / p.density⟩)

/-- System::derivEval (System.cpp:145-150): clear the force accumulators,
recompute densities, pressures and forces, build the derivative vector
(the constraint-solver call in the source is commented out). -/
def derivEval (dEval : List Particle → Particle → ℚ) (fs : List ForceFun)
    (ps : List Particle) : List SVec :=
  computeDerivative (computeForces dEval fs (clearForces ps))

/-- C3: the derivative-evaluation pipeline.  Force accumulators are first
zeroed; densities come from the density field; the rest density is the
arithmetic mean of the just-assigned densities; each pressure is
k * (density - restDensity) with k = 0.1; the registered forces run in
registration order over that staged list; and the returned vector holds,
per particle, the velocity in the position-derivative slots and
force / density in the velocity-derivative slots. -/
theorem c3_derivEval_pipeline (dEval : List Particle → Particle → ℚ) (fs : List ForceFun)
    (ps : List Particle) (hne : ps ≠ []) :
    (∀ p ∈ clearForces ps, p.force = 0) ∧
      derivEval dEval fs ps =
        computeDerivative
          (fs.foldl (fun acc f => f acc)
            ((clearForces ps).map (fun p =>
              { p with
                density := dEval (clearForces ps) p,
                pressure :=
                  0.1 * (dEval (clearForces ps) p -
                    ((clearForces ps).map (fun q => dEval (clearForces ps) q)).sum /
                      (ps.length : ℚ)) }))) ∧
      ∀ i : ℕ,
        nth (derivEval dEval fs ps) i =
          (nth (computeForces dEval fs (clearForces ps)) i).map
            (fun p =>
              (⟨p.velocity.x, p.velocity.y, p.velocity.z,
                p.force.x / p.density, p.force.y / p.density,
                p.force.z / p.density⟩ : SVec)) := by
  refine ⟨?_, ?_, ?_⟩
  · intro p hp
    simp only [clearForces, List.mem_map] at hp
    obtain ⟨q, -, rfl⟩ := hp
    rfl
  · have hlen : (clearForces ps).length = ps.length := by simp [clearForces]
    simp only [derivEval, computeForces, List.map_map, hlen]
    rfl
  · intro i
    simp only [derivEval, computeDerivative, nth_map]

/-- Concrete two-particle configuration for the C3 witness. -/
def testPs : List Particle :=
  [⟨⟨0, 0, 0⟩, ⟨1, 2, 3⟩, ⟨7, 7, 7⟩, 2, 5, 9, true⟩,
   ⟨⟨1, 0, 0⟩, ⟨0, 0, 0⟩, ⟨0, 0, 0⟩, 4, 5, 9, false⟩]

/-- Concrete density field for the C3 witness: each particle's mass. -/
def testDEval : List Particle → Particle → ℚ := fun _ p => p.mass

/-- Concrete force list for the C3 witness: one downward force. -/
def testFs : List ForceFun :=
  [fun l => l.map (fun p => { p with force := p.force + ⟨0, -10, 0⟩ })]

theorem c3_derivEval_pipeline_witness :
    testPs ≠ [] ∧
      ((∀ p ∈ clearForces testPs, p.force = 0) ∧
        derivEval testDEval testFs testPs =
          computeDerivative
            (testFs.foldl (fun acc f => f acc)
              ((clearForces testPs).map (fun p =>
                { p with
                  density := testDEval (clearForces testPs) p,
                  pressure :=
                    0.1 * (testDEval (clearForces testPs) p -
                      ((clearForces testPs).map
                          (fun q => testDEval (clearForces testPs) q)).sum /
                        (testPs.length : ℚ)) }))) ∧
        ∀ i : ℕ,
          nth (derivEval testDEval testFs testPs) i =
            (nth (computeForces testDEval testFs (clearForces testPs)) i).map
              (fun p =>
                (⟨p.velocity.x, p.velocity.y, p.velocity.z,
                  p.force.x / p.density, p.force.y / p.density,
                  p.force.z / p.density⟩ : SVec))) :=
  ⟨by simp [testPs], c3_derivEval_pipeline testDEval testFs testPs (by simp [testPs])⟩

/-- Modelled float semantics of the mean-density division
`restDensity /= particles.size()` (System.cpp:181): an IEEE float
division by a zero count does not produce a finite value (`0.0f / 0` is
NaN), modelled by `none`; a nonzero count yields the exact finite
quotient. -/
def restDensityFloat (densities : List ℚ) : Option ℚ :=
  if densities.length = 0 then none
  else some (densities.sum / (densities.length : ℚ))

/-- C4: with zero particles the claim fails on the code.  The division by
the particle count is still executed and divides by zero (no finite
result, first conjunct), and the force-application loop is not skipped:
computeForces on the empty particle list still folds every registered
force over the (empty) list rather than returning early. -/
theorem c4_empty_system_divides_by_zero :
    restDensityFloat [] = none ∧
      ∀ (dEval : List Particle → Particle → ℚ) (fs : List ForceFun),
        computeForces dEval fs [] = fs.foldl (fun acc f => f acc) [] :=
  ⟨rfl, fun _ _ => rfl⟩

/-! Surface-tension force.  Its neighbourhood of the source divides a
vector by its Euclidean norm, so this part of the embedding works over
`ℝ` with `Real.sqrt`. -/

/-- Three-component real vector for the surface-tension path. -/
structure V3R where
  x : ℝ
  y : ℝ
  z : ℝ

instance : Add V3R := ⟨fun a b => ⟨a.x + b.x, a.y + b.y, a.z + b.z⟩⟩

instance : SMul ℝ V3R := ⟨fun q v => ⟨q * v.x, q * v.y, q * v.z⟩⟩

@[simp] theorem V3R.add_eq (a b : V3R) :
    a + b = ⟨a.x + b.x, a.y + b.y, a.z + b.z⟩ := rfl

@[simp] theorem V3R.smul_eq (q : ℝ) (v : V3R) :
    q • v = ⟨q * v.x, q * v.y, q * v.z⟩ := rfl

/-- Componentwise division of a real vector by a scalar. -/
noncomputable def V3R.sdiv (v : V3R) (a : ℝ) : V3R := ⟨v.x / a, v.y / a, v.z / a⟩

/-- Eigen `.norm()`: the Euclidean norm. -/
noncomputable def V3R.norm (v : V3R) : ℝ := Real.sqrt (v.x ^ 2 + v.y ^ 2 + v.z ^ 2)

/-- A particle as seen by the surface-tension force, with real scalars. -/
structure RParticle where
  position : V3R
  velocity : V3R
  force : V3R
  mass : ℝ
  density : ℝ
  pressure : ℝ
  movable : Bool

/-- SurfaceForce::apply (SurfaceForce.cpp:14-25).  `dEval` and `ddEval`
abstract the colour field's gradient and Laplacian (ColorField lives
outside the inspected sources). -/
noncomputable def SurfaceForce.apply (dEval : V3R → V3R) (ddEval : V3R → ℝ)
    (targets : List RParticle) : List RParticle :=
  let sigma : ℝ := 72.75
  let certainThreshold : ℝ := 0.01
  targets.map (fun p =>
    let n := dEval p.position
    if n.norm > certainThreshold then
      { p with force := p.force + (((-sigma * ddEval p.position) • n).sdiv n.norm) }
    else p)

/-- C9: the surface-tension force adds
-sigma * ddEval(position) * n / |n| (sigma = 72.75) to a target's force
accumulator exactly when the colour-field gradient magnitude exceeds the
threshold 0.01, and leaves the accumulator unchanged otherwise. -/
theorem c9_surface_tension_threshold (dEval : V3R → V3R) (ddEval : V3R → ℝ)
    (ps : List RParticle) (i : ℕ) (p : RParticle) (h : nth ps i = some p) :
    (0.01 < (dEval p.position).norm →
        (nth (SurfaceForce.apply dEval ddEval ps) i).map RParticle.force =
          some (p.force +
            (((-(72.75 : ℝ) * ddEval p.position) • dEval p.position).sdiv
              (dEval p.position).norm))) ∧
      ((dEval p.position).norm ≤ 0.01 →
        (nth (SurfaceForce.apply dEval ddEval ps) i).map RParticle.force =
          some p.force) := by
  constructor
  · intro hgt
    simp [SurfaceForce.apply, nth_map, h, hgt]
  · intro hle
    have hnot : ¬((dEval p.position).norm > 0.01) := not_lt.mpr hle
    simp [SurfaceForce.apply, nth_map, h, hnot]

/-- Concrete particle for the C9 witness. -/
def surfP : RParticle := ⟨⟨0, 0, 0⟩, ⟨0, 0, 0⟩, ⟨0, 0, 0⟩, 1, 1, 0, true⟩

/-- Concrete colour-field gradient of magnitude 1 for the C9 witness. -/
def surfGrad : V3R → V3R := fun _ => ⟨1, 0, 0⟩

/-- Concrete zero colour-field gradient for the C9 witness. -/
def surfGradZero : V3R → V3R := fun _ => ⟨0, 0, 0⟩

/-- Concrete colour-field Laplacian for the C9 witness. -/
def surfCurv : V3R → ℝ := fun _ => 1

theorem c9_surface_tension_threshold_witness :
    (0.01 < (surfGrad surfP.position).norm ∧
        (nth (SurfaceForce.apply surfGrad surfCurv [surfP]) 0).map RParticle.force =
          some (surfP.force +
            (((-(72.75 : ℝ) * surfCurv surfP.position) • surfGrad surfP.position).sdiv
              (surfGrad surfP.position).norm))) ∧
      ((surfGradZero surfP.position).norm ≤ 0.01 ∧
        (nth (SurfaceForce.apply surfGradZero surfCurv [surfP]) 0).map RParticle.force =
          some surfP.force) := by
  have h1 : (surfGrad surfP.position).norm = 1 := by
    simp [surfGrad, V3R.norm]
  have hgt : (0.01 : ℝ) < (surfGrad surfP.position).norm := by
    rw [h1]; norm_num
  have h0 : (surfGradZero surfP.position).norm = 0 := by
    simp [surfGradZero, V3R.norm]
  have hle : (surfGradZero surfP.position).norm ≤ 0.01 := by
    rw [h0]; norm_num
  exact ⟨⟨hgt, (c9_surface_tension_threshold surfGrad surfCurv [surfP] 0 surfP rfl).1 hgt⟩,
    ⟨hle, (c9_surface_tension_threshold surfGradZero surfCurv [surfP] 0 surfP rfl).2 hle⟩⟩

/-! Adaptive step controller. -/

/-- Componentwise difference of two state blocks (Eigen `xa - xb`). -/
def SVec.sub (a b : SVec) : SVec :=
  ⟨a.px - b.px, a.py - b.py, a.pz - b.pz, a.vx - b.vx, a.vy - b.vy, a.vz - b.vz⟩

/-- Sum of the squares of a block's six components. -/
def SVec.normSq (c : SVec) : ℚ :=
  c.px ^ 2 + c.py ^ 2 + c.pz ^ 2 + c.vx ^ 2 + c.vy ^ 2 + c.vz ^ 2

/-- Squared Euclidean norm of the componentwise difference of two state
vectors: the square of Eigen's `(xa - xb).norm()` (System.cpp:102). -/
def stateNormSq (a b : List SVec) : ℚ :=
  ((List.zipWith SVec.sub a b).map SVec.normSq).sum

/-- The six components of a block, in flat state-vector order. -/
def SVec.toList (c : SVec) : List ℚ :=
  [c.px, c.py, c.pz, c.vx, c.vy, c.vz]

/-- Flattening of the blocked state vector back to the flat `6 N` list. -/
def flattenState : List SVec → List ℚ
  | [] => []
  | c :: st => c.toList ++ flattenState st

/-- Euclidean norm of a flat rational vector, following the spec's words. -/
noncomputable def euclideanNormOfList (l : List ℚ) : ℝ :=
  Real.sqrt (((l.map (fun q => q * q)).sum : ℚ) : ℝ)

/-- The external Solver capability (spec §6): `simulateStep(system, dt)`
advances the system in place through the getState/setState contract,
modelled as a function from the read state vector and the step size to
the state vector it writes back. -/
abbrev SolverFun := List SVec → ℝ → List SVec

/-- Solver::simulateStep as the core observes it: read the state, let the
solver integrate, write the result back (the solver's time bookkeeping is
elided; it does not touch particles). -/
def simulateStep (f : SolverFun) (s : System) (h : ℝ) : System :=
  s.setState1 (f s.getState h)

/-- System::step (System.cpp:91-110).  In the adaptive branch: snapshot,
one full-dt trial, read state A, restore, two half-dt trials, read state
B, compute the error as `(A - B).norm()`, rescale dt by
`pow(0.001f / err, .5f)` when the error is positive (for a positive
argument `pow(x, .5f)` is the square root), restore again, and take the
accepted step with the current dt. -/
noncomputable def System.step (f : SolverFun) (adaptive : Bool) (s : System) : System :=
  if adaptive then
    let before := s.getState
    let sA := simulateStep f s s.dt
    let xa := sA.getState
    let sR := sA.setState1 before
    let sH1 := simulateStep f sR (sR.dt / 2)
    let sH2 := simulateStep f sH1 (sH1.dt / 2)
    let xb := sH2.getState
    let err : ℝ := Real.sqrt ((stateNormSq xa xb : ℚ) : ℝ)
    let sE := if 0 < err then { sH2 with dt := sH2.dt * Real.sqrt ((0.001 : ℝ) / err) } else sH2
    let sF := sE.setState1 before
    simulateStep f sF sF.dt
  else
    simulateStep f s s.dt

/-- Trial state A of the adaptive controller: the state after the full-dt
trial step (System.cpp:95). -/
def trialFull (f : SolverFun) (s : System) : List SVec :=
  (simulateStep f s s.dt).getState

/-- Trial state B: the state after restoring the snapshot and taking two
half-dt trial steps (System.cpp:100). -/
noncomputable def trialHalves (f : SolverFun) (s : System) : List SVec :=
  let sR := (simulateStep f s s.dt).setState1 s.getState
  let sH1 := simulateStep f sR (sR.dt / 2)
  (simulateStep f sH1 (sH1.dt / 2)).getState

/-- The local error of the adaptive step (System.cpp:102). -/
noncomputable def localError (f : SolverFun) (s : System) : ℝ :=
  Real.sqrt ((stateNormSq (trialFull f s) (trialHalves f s) : ℚ) : ℝ)

/-- The system immediately before the final accepted solver call of an
adaptive step: after the trials, the possible dt rescale and the final
snapshot restore (the state on entry to System.cpp:109). -/
noncomputable def stepBeforeFinal (f : SolverFun) (s : System) : System :=
  let before := s.getState
  let sA := simulateStep f s s.dt
  let xa := sA.getState
  let sR := sA.setState1 before
  let sH1 := simulateStep f sR (sR.dt / 2)
  let sH2 := simulateStep f sH1 (sH1.dt / 2)
  let xb := sH2.getState
  let err : ℝ := Real.sqrt ((stateNormSq xa xb : ℚ) : ℝ)
  let sE := if 0 < err then { sH2 with dt := sH2.dt * Real.sqrt ((0.001 : ℝ) / err) } else sH2
  sE.setState1 before

/-! Lemmas about the adaptive controller. -/

theorem normSq_flatten (l : List SVec) :
    ((flattenState l).map (fun q => q * q)).sum = (l.map SVec.normSq).sum := by
  induction l with
  | nil => rfl
  | cons c l ih =>
    simp [flattenState, SVec.toList, SVec.normSq, ih]
    ring

/-- Shape of the dt field of the system just before the accepted step. -/
theorem stepBeforeFinal_dt (f : SolverFun) (s : System) :
    (stepBeforeFinal f s).dt =
      if 0 < localError f s then s.dt * Real.sqrt ((0.001 : ℝ) / localError f s)
      else s.dt := by
  have key : ∀ (X : System) (b : List SVec) (e d : ℝ),
      (((if 0 < e then { X with dt := d } else X)).setState1 b).dt =
        if 0 < e then d else X.dt := by
    intro X b e d
    split_ifs <;> rfl
  exact key _ _ (localError f s) _

/-- C5: the adaptive step's local error is the Euclidean norm of the
difference of the full-dt trial state and the two-half-steps trial state;
a strictly positive error rescales dt by sqrt(0.001 / error) before the
accepted step, and a zero error leaves dt unchanged. -/
theorem c5_adaptive_error_and_dt (f : SolverFun) (s : System) :
    localError f s =
        euclideanNormOfList
          (flattenState (List.zipWith SVec.sub (trialFull f s) (trialHalves f s))) ∧
      (localError f s = 0 → (System.step f true s).dt = s.dt) ∧
      (0 < localError f s →
        (System.step f true s).dt = s.dt * Real.sqrt ((0.001 : ℝ) / localError f s)) := by
  have hstep : (System.step f true s).dt = (stepBeforeFinal f s).dt := rfl
  refine ⟨?_, ?_, ?_⟩
  · simp only [localError, euclideanNormOfList, stateNormSq]
    rw [normSq_flatten]
  · intro h0
    rw [hstep, stepBeforeFinal_dt, if_neg]
    rw [h0]
    exact lt_irrefl 0
  · intro hpos
    rw [hstep, stepBeforeFinal_dt, if_pos hpos]

/-- Relation between an original particle and one reached from it through
setState writes only: every field except position and velocity is
untouched, and an immovable particle is untouched entirely. -/
def sameShape (p q : Particle) : Prop :=
  q.force = p.force ∧ q.mass = p.mass ∧ q.density = p.density ∧
    q.pressure = p.pressure ∧ q.movable = p.movable ∧ (p.movable = false → q = p)

theorem sameShape_refl (p : Particle) : sameShape p p :=
  ⟨rfl, rfl, rfl, rfl, rfl, fun _ => rfl⟩

theorem forall2_sameShape_refl (ps : List Particle) :
    List.Forall₂ sameShape ps ps := by
  induction ps with
  | nil => exact List.Forall₂.nil
  | cons p ps ih => exact List.Forall₂.cons (sameShape_refl p) ih

theorem writeState_preserves_sameShape {ps qs : List Particle}
    (h : List.Forall₂ sameShape ps qs) (src : List SVec) :
    List.Forall₂ sameShape ps (writeState qs src) := by
  induction h generalizing src with
  | nil => exact List.Forall₂.nil
  | @cons p q ps qs hpq hrest ih =>
    refine List.Forall₂.cons ?_ (ih src.tail)
    obtain ⟨hf, hm, hd, hp, hmv, him⟩ := hpq
    by_cases hmov : q.movable
    · rw [if_pos hmov]
      refine ⟨hf, hm, hd, hp, ?_, ?_⟩
      · simpa [Particle.applyState] using hmv
      · intro hpm
        rw [hpm] at hmv
        simp [hmov] at hmv
    · rw [if_neg hmov]
      exact ⟨hf, hm, hd, hp, hmv, him⟩

theorem writeState_restore {ps qs : List Particle}
    (h : List.Forall₂ sameShape ps qs) (i : ℕ) :
    (nth (writeState qs (ps.map Particle.readState)) i).map
        (fun p => (p.position, p.velocity)) =
      (nth ps i).map (fun p => (p.position, p.velocity)) := by
  induction h generalizing i with
  | nil => rfl
  | @cons p q ps qs hpq hrest ih =>
    cases i with
    | zero =>
      obtain ⟨-, -, -, -, hmv, him⟩ := hpq
      by_cases hmov : q.movable
      · have happ : q.applyState p.readState = { q with position := p.position, velocity := p.velocity } := rfl
        simp [writeState, nth, hmov, happ]
      · have hpm : p.movable = false := by
          rw [← hmv]
          exact Bool.not_eq_true q.movable ▸ Bool.of_not_eq_true hmov
        simp [writeState, nth, hmov, him hpm, hpm]
    | succ n =>
      simpa [writeState, nth] using ih n

/-- System state after the two half-dt trial steps (System.cpp:99). -/
noncomputable def trialsEnd (f : SolverFun) (s : System) : System :=
  let sR := (simulateStep f s s.dt).setState1 s.getState
  let sH1 := simulateStep f sR (sR.dt / 2)
  simulateStep f sH1 (sH1.dt / 2)

theorem forall2_ite (c : Prop) [Decidable c] (A B : System) (ps : List Particle)
    (hA : List.Forall₂ sameShape ps A.particles)
    (hB : List.Forall₂ sameShape ps B.particles) :
    List.Forall₂ sameShape ps (if c then A else B).particles := by
  split_ifs <;> assumption

/-- C6: the trial integrations of an adaptive step never leak into the
accepted state: immediately before the final accepted solver call, every
particle's position and velocity equal their values in the snapshot taken
at the start of the step, and the step's result is exactly the final
solver invocation on that restored system. -/
theorem c6_trials_never_leak (f : SolverFun) (s : System) (i : ℕ) :
    (nth (stepBeforeFinal f s).particles i).map (fun p => (p.position, p.velocity)) =
        (nth s.particles i).map (fun p => (p.position, p.velocity)) ∧
      System.step f true s =
        simulateStep f (stepBeforeFinal f s) ((stepBeforeFinal f s).dt) := by
  constructor
  · have h4 : List.Forall₂ sameShape s.particles (trialsEnd f s).particles :=
      writeState_preserves_sameShape
        (writeState_preserves_sameShape
          (writeState_preserves_sameShape
            (writeState_preserves_sameShape (forall2_sameShape_refl s.particles) _) _) _) _
    have hsE : List.Forall₂ sameShape s.particles
        ((if 0 < localError f s then
            { trialsEnd f s with
              dt := (trialsEnd f s).dt * Real.sqrt ((0.001 : ℝ) / localError f s) }
          else trialsEnd f s)).particles := forall2_ite _ _ _ _ h4 h4
    exact writeState_restore hsE i
  · rfl

/-- One movable particle at the origin, dt = 1, for the C5 witness. -/
def stepS0 : System :=
  ⟨[⟨⟨0, 0, 0⟩, ⟨0, 0, 0⟩, ⟨0, 0, 0⟩, 1, 1, 0, true⟩], 1, 0⟩

/-- Identity solver: zero local error. -/
def stepF0 : SolverFun := fun st _ => st

/-- Solver shifting the X position by 1 per call: local error 1. -/
def stepF1 : SolverFun := fun st _ => st.map (fun c => { c with px := c.px + 1 })

theorem c5_adaptive_error_and_dt_witness :
    (localError stepF0 stepS0 = 0 ∧ (System.step stepF0 true stepS0).dt = stepS0.dt) ∧
      (0 < localError stepF1 stepS0 ∧
        (System.step stepF1 true stepS0).dt =
          stepS0.dt * Real.sqrt ((0.001 : ℝ) / localError stepF1 stepS0)) := by
  have hq0 : stateNormSq (trialFull stepF0 stepS0) (trialHalves stepF0 stepS0) = 0 := by
    norm_num [stateNormSq, trialFull, trialHalves, simulateStep, System.setState1,
      System.setState, System.getState, stepF0, stepS0, writeState, Particle.applyState,
      Particle.readState, SVec.sub, SVec.normSq]
  have h0 : localError stepF0 stepS0 = 0 := by
    simp only [localError, hq0]
    simp
  have hq1 : stateNormSq (trialFull stepF1 stepS0) (trialHalves stepF1 stepS0) = 1 := by
    norm_num [stateNormSq, trialFull, trialHalves, simulateStep, System.setState1,
      System.setState, System.getState, stepF1, stepS0, writeState, Particle.applyState,
      Particle.readState, SVec.sub, SVec.normSq]
  have h1 : localError stepF1 stepS0 = 1 := by
    simp only [localError, hq1]
    simp
  refine ⟨⟨h0, (c5_adaptive_error_and_dt stepF0 stepS0).2.1 h0⟩, ?_,
    (c5_adaptive_error_and_dt stepF1 stepS0).2.2 ?_⟩ <;> rw [h1] <;> norm_num
